import Mathlib

/-!
Shallow embedding of the TraceForge execution core
(`src/traceforge/src/sync/notify.rs` and
`src/traceforge/src/runtime/execution.rs`), together with proofs of the
specification's claims about it.

Machine integers (`usize`) are modelled as `Nat`; where a cast to `u32`
occurs in the source, the embedding takes the value modulo `2 ^ 32`.
Fallible or panicking operations are modelled with `Option` / `Except`.
-/

namespace TraceForge

/-! ## The `Notify` primitive (`src/sync/notify.rs`)

The oneshot channels (`crate::sync::oneshot`) are not part of the given
sources; they are modelled from the spec: each channel is identified by a
`Nat`, freshly allocated from a counter; the send half delivers a value,
after which the receive half polls `Ready`.  A `NotifyWorld` bundles the
`Notify` object's fields (`state`, `waiters`) with the channel allocator
(`nextCh`) and the set of channels whose sender has sent (`sent`). -/

/-- State of a `Notify` object together with the oneshot-channel world.
`state` is the latched-notification slot (`AtomicUsize` in `{0,1}`);
`waiters` is the `Vec<oneshot::Sender<bool>>`, listed front to back, so
`Vec::push` appends at the back and `Vec::pop` removes the back element;
`nextCh` is the next fresh channel id; `sent` lists the channels on which
`send(true)` has been called. -/
structure NotifyWorld where
  state : Nat
  waiters : List Nat
  nextCh : Nat
  sent : List Nat
deriving DecidableEq, Repr

/-- The awaitable returned by `Notify::notified`: `receiver` is the
optional oneshot receive half, present only after the first suspension. -/
structure Notified where
  receiver : Option Nat
deriving DecidableEq, Repr

/-- `Notify::notified` — cheap builder, no state change. -/
def Notify.notified : Notified := ⟨none⟩

/-- `Notify::notify_one` (notify.rs:41-51): lock `waiters`; if a waiter is
present, `Vec::pop` the *back* sender and `send(true)` on it; otherwise
store 1 into `state`, latching the notification. -/
def notify_one (w : NotifyWorld) : NotifyWorld :=
  match w.waiters.getLast? with
  | some ch => { w with waiters := w.waiters.dropLast, sent := w.sent ++ [ch] }
  | none => { w with state := 1 }

/-- Result of polling a future. -/
inductive Poll where
  | Ready
  | Pending
deriving DecidableEq, Repr

/-- `Notified::poll_notified` (notify.rs:76-103): first try
`state.compare_exchange(1, 0)`; on success resolve `Ready`.  Otherwise, if
no receiver is held yet, create a oneshot pair, push the sender on
`waiters`, store the receiver.  Finally poll the receiver: `Ready` once its
sender has sent, else `Pending`.  Returns the poll result, the updated
world and the updated `Notified`. -/
def poll_notified (w : NotifyWorld) (n : Notified) : Poll × NotifyWorld × Notified :=
  if w.state = 1 then
    (.Ready, { w with state := 0 }, n)
  else
    let reg :=
      if n.receiver.isNone then
        ({ w with waiters := w.waiters ++ [w.nextCh], nextCh := w.nextCh + 1 },
         (⟨some w.nextCh⟩ : Notified))
      else (w, n)
    match reg.2.receiver with
    | some ch => (if ch ∈ reg.1.sent then .Ready else .Pending, reg.1, reg.2)
    | none => (.Pending, reg.1, reg.2)

/-- Iterate `notify_one` `n` times. -/
def notifyIter : Nat → NotifyWorld → NotifyWorld
  | 0, w => w
  | n + 1, w => notifyIter n (notify_one w)

/-- The channels signalled by `n` successive `notify_one` calls, in call
order (a call that finds no waiter latches `state` and signals nobody). -/
def notifyDeliveries : Nat → NotifyWorld → List Nat
  | 0, _ => []
  | n + 1, w => w.waiters.getLast?.toList ++ notifyDeliveries n (notify_one w)

/-- Does this poll register (push) a sender on the waiter queue? -/
def pollPushes (w : NotifyWorld) (n : Notified) : Bool :=
  !(w.state == 1) && n.receiver.isNone

/-- Total number of senders pushed over a sequence of polls of one
`Notified`, the world at each poll given by the list (other tasks may
change the world arbitrarily between polls). -/
def countPushes : List NotifyWorld → Notified → Nat
  | [], _ => 0
  | w :: ws, n =>
    (if pollPushes w n then 1 else 0) + countPushes ws (poll_notified w n).2.2

/-! ## The execution engine (`src/runtime/execution.rs`)

`TaskId` is modelled as a `Nat` (the Rust newtype `TaskId(usize)`).
The `Task` structure itself (`src/runtime/task.rs`) is not among the given
sources; it is modelled from the spec: id (immutable), optional debug name,
instruction counter, runnable flag, finished flag.  The continuation handle
carries arbitrary user code and is not modelled.  `Event`
(`src/event.rs`, also absent) is modelled from the spec as a
*(thread-id, instruction-count)* pair.  The `Must` strategy handle is an
external collaborator; it is modelled as a pair of abstract functions
(`next_task`, `to_thread_id`) passed explicitly where the Rust code reads
them through `self.must`. -/

/-- Modelled from the spec: a `Task` is bookkeeping around a continuation:
immutable id, optional name, instruction counter, runnable and finished
flags.  A freshly constructed task is runnable and not finished with a
zero instruction counter. -/
structure Task where
  id : Nat
  name : Option String
  instructions : Nat
  runnable : Bool
  finished : Bool
deriving DecidableEq, Repr

/-- Modelled from the spec: `Task::from_closure(f, stack_size, id, name)`.
The closure and stack size do not affect the scheduling-visible fields. -/
def Task.from_closure (stack_size : Nat) (id : Nat) (name : Option String) : Task :=
  let _ := stack_size
  { id := id, name := name, instructions := 0, runnable := true, finished := false }

/-- `Task::finish` — set the terminal finished flag. -/
def Task.finish (t : Task) : Task := { t with finished := true }

/-- The `ScheduledTask` variant (execution.rs:183-189). -/
inductive ScheduledTask where
  | None
  | Some (tid : Nat)
  | Stopped
  | Finished
deriving DecidableEq, Repr

/-- `ScheduledTask::id` (execution.rs:192-197). -/
def ScheduledTask.id : ScheduledTask → Option Nat
  | .Some tid => some tid
  | _ => none

/-- Modelled from the spec: an `Event` position is a pair
*(thread-id, instruction-count)*; `Event::new(tid, icount)`. -/
structure Event where
  thread : Nat
  icount : Nat
deriving DecidableEq, Repr

/-- `Event::new`. -/
def Event.new (thread icount : Nat) : Event := ⟨thread, icount⟩

/-- The external `Must` strategy interface (§6 of the spec):
`next_task` picks among the runnable ids or abandons; `to_thread_id` is
the stable TaskId → thread-id mapping used to build `Event`s. -/
structure Strategy where
  next_task : List (Nat × Nat) → Option Nat → Option Nat
  to_thread_id : Nat → Nat

/-- The data fields of `ExecutionState` (execution.rs:169-181).  The
`must` handle is not part of the data model here; the strategy functions
are passed explicitly to the operations that consult them. -/
structure ExecutionState where
  tasks : List Task
  current_task : ScheduledTask
  next_task : ScheduledTask
deriving DecidableEq, Repr

/-- `ExecutionState::new` (execution.rs:205-215). -/
def ExecutionState.new : ExecutionState :=
  { tasks := [], current_task := .None, next_task := .None }

/-- The runnable set computed inside `schedule` (execution.rs:411-416):
`[(t.id, t.instructions) for t in tasks if t.runnable()]`. -/
def runnableSet (st : ExecutionState) : List (Nat × Nat) :=
  (st.tasks.filter (fun t => t.runnable)).map (fun t => (t.id, t.instructions))

/-- `ExecutionState::schedule` (execution.rs:404-434).  If a choice is
already pending, succeed immediately; if no task is runnable, record
`Finished`; otherwise ask the strategy, mapping `Some` to `Some` and
`None` to `Stopped`.  The `Result<(), String>` of the source is an
`Except String` carrying the updated state. -/
def ExecutionState.schedule (strat : Strategy) (st : ExecutionState) :
    Except String ExecutionState :=
  if st.next_task ≠ ScheduledTask.None then .ok st
  else
    let runnable := runnableSet st
    if runnable.isEmpty then .ok { st with next_task := .Finished }
    else
      .ok { st with next_task :=
        match strat.next_task runnable st.current_task.id with
        | some tid => .Some tid
        | none => .Stopped }

/-- `ExecutionState::advance_to_next_task` (execution.rs:437-440): move
`next_task` into `current_task`, leaving `next_task = None`. -/
def ExecutionState.advance_to_next_task (st : ExecutionState) : ExecutionState :=
  { st with current_task := st.next_task, next_task := .None }

/-- `ExecutionState::maybe_yield` (execution.rs:302-325): pre-run the
scheduler; on a scheduling error yield; if the chosen next task equals the
current one, advance immediately and report `false` (no need to yield),
else report `true` (please yield).  The `with` borrow of the thread-local
state is implicit: the function acts on the state directly. -/
def ExecutionState.maybe_yield (strat : Strategy) (st : ExecutionState) :
    Bool × ExecutionState :=
  match st.schedule strat with
  | .error _ => (true, st)
  | .ok st1 =>
    if st1.current_task = st1.next_task then (false, st1.advance_to_next_task)
    else (true, st1)

/-- `ExecutionState::spawn_thread` (execution.rs:248-263): the new task id
is the current number of tasks; the task is pushed at the end and the id
returned.  The `with` wrapper around the state access is implicit. -/
def ExecutionState.spawn_thread (stack_size : Nat) (name : Option String)
    (st : ExecutionState) : Nat × ExecutionState :=
  let task_id := st.tasks.length
  let task := Task.from_closure stack_size task_id name
  (task_id, { st with tasks := st.tasks ++ [task] })

/-- Iterated `spawn_thread` over a list of `(stack_size, name)` requests. -/
def spawnMany : List (Nat × Option String) → ExecutionState → ExecutionState
  | [], st => st
  | (sz, nm) :: rest, st => spawnMany rest (st.spawn_thread sz nm).2

/-- `ExecutionState::try_get` (execution.rs:363-365). -/
def ExecutionState.try_get (st : ExecutionState) (id : Nat) : Option Task :=
  st.tasks.get? id

/-- `ExecutionState::try_current` (execution.rs:351-353). -/
def ExecutionState.try_current (st : ExecutionState) : Option Task :=
  match st.current_task.id with
  | some tid => st.try_get tid
  | none => none

/-- `ExecutionState::curr_pos` (execution.rs:395-399), defined when a
current task exists: `Event::new(to_thread_id(current.id),
current.instructions as u32)`. -/
def ExecutionState.curr_pos (strat : Strategy) (st : ExecutionState) : Option Event :=
  match st.try_current with
  | some task => some (Event.new (strat.to_thread_id task.id) (task.instructions % 2 ^ 32))
  | none => none

/-- `ExecutionState::prev_pos` (execution.rs:388-393): decrement the
current task's `instructions` (a `usize`, so the subtraction underflows —
panicking in debug builds — when the counter is 0, modelled as `none`) and
return the `Event` at the decremented count together with the updated
state.  Also `none` when no current task exists (`current()` unwraps). -/
def ExecutionState.prev_pos (strat : Strategy) (st : ExecutionState) :
    Option (Event × ExecutionState) :=
  match st.current_task.id with
  | none => none
  | some tid =>
    match st.tasks.get? tid with
    | none => none
    | some task =>
      if task.instructions = 0 then none
      else
        let task' := { task with instructions := task.instructions - 1 }
        some (Event.new (strat.to_thread_id tid) (task'.instructions % 2 ^ 32),
              { st with tasks := st.tasks.set tid task' })

/-- `ExecutionState::failure_info` (execution.rs:330-342): the current
task's name (defaulting to `task-<id>`) and current position, `none` when
there is no current task. -/
def failure_info (strat : Strategy) (st : ExecutionState) : Option (String × Event) :=
  match st.try_current with
  | some task =>
    match st.curr_pos strat with
    | some pos => some (task.name.getD ("task-" ++ toString task.id), pos)
    | none => none
  | none => none

/-- The `NextStep` enum local to `Execution::step` (execution.rs:70-74).
The continuation handle is identified by the chosen task id. -/
inductive NextStep where
  | task (tid : Nat)
  | failure (msg : String)
  | finished
deriving DecidableEq, Repr

/-- Phase A of `Execution::step` (execution.rs:76-117), run under `with`:
schedule if needed, advance, then branch on the new `current_task`.
On `Finished` with an unfinished task, build the deadlock failure message
listing each blocked task as `<name> (task <id>)` (name defaulting to
`<unknown>`). -/
def stepChoose (strat : Strategy) (st : ExecutionState) : NextStep × ExecutionState :=
  match st.schedule strat with
  | .error msg => (.failure msg, st)
  | .ok st1 =>
    let st2 := st1.advance_to_next_task
    match st2.current_task with
    | .Some tid => (.task tid, st2)
    | .Finished =>
      if st2.tasks.any (fun t => !t.finished) then
        let blocked_tasks := (st2.tasks.filter (fun t => !t.finished)).map
          (fun t => t.name.getD "<unknown>" ++ " (task " ++ toString t.id ++ ")")
        (.failure ("deadlock! blocked tasks: [" ++ String.intercalate ", " blocked_tasks ++ "]"),
         st2)
      else (.finished, st2)
    | .Stopped => (.finished, st2)
    | .None => (.failure "no task was scheduled", st2)

/-- Outcome of one driver step, as seen from outside: hand a task id to
the resume phase, raise a panic carrying a message, or stop the loop. -/
inductive StepResult where
  | resume (tid : Nat)
  | panics (msg : String)
  | stop
deriving DecidableEq, Repr

/-- `Execution::step` up to the resume phase (execution.rs:119-137): a
chosen task is handed to `resume`; a failure calls
`persist_task_failure(msg, failure_info position)` and panics with the
returned message; `Finished` stops the loop.  `persist` abstracts the
external `persist_task_failure` collaborator. -/
def Execution.step (persist : String → Option Event → String) (strat : Strategy)
    (st : ExecutionState) : StepResult × ExecutionState :=
  match stepChoose strat st with
  | (.task tid, st') => (.resume tid, st')
  | (.failure msg, st') =>
    let pos := (failure_info strat st').map (fun fi => fi.2)
    (.panics (persist msg pos), st')
  | (.finished, st') => (.stop, st')

/-- A panic payload: either a `String` or an opaque boxed value
(`Box<dyn Any + Send>`), the latter identified by a tag. -/
inductive PanicPayload where
  | str (s : String)
  | opaqueBox (tag : Nat)
deriving DecidableEq, Repr

/-- The `Err` arm of `Execution::step`'s resume classification
(execution.rs:148-158): read `(name, pos)` from `failure_info`, persist,
and rebuild the payload: a string payload becomes
`"<persist message>\noriginal panic: <string>"`; any other payload is
forwarded unchanged. -/
def step_on_panic (persist : String → Option Event → String) (name : String)
    (pos : Event) (e : PanicPayload) : PanicPayload :=
  let message := persist name (some pos)
  match e with
  | .str panic_msg => .str (message ++ "\noriginal panic: " ++ panic_msg)
  | .opaqueBox t => .opaqueBox t

/-- The scoped thread-local holding the `ExecutionState`
(execution.rs:16-18): whether `EXECUTION_STATE` is set, whether the
`RefCell` is currently mutably borrowed, and the state itself. -/
structure StateCell where
  isSet : Bool
  borrowed : Bool
  state : ExecutionState

/-- The `expect` message of `ExecutionState::with` (execution.rs:225). -/
def withExpectMsg : String :=
  "The TraceForge API (spawn, recv_msg, etc.) should be used only from threads launched using traceforge::spawn and only inside a TraceForge test."

/-- `ExecutionState::try_with` (execution.rs:231-246): if the thread-local
is set and the `RefCell` borrow succeeds, run `f` on the state and return
its result and the updated state; otherwise return `none` with everything
unchanged. -/
def ExecutionState.try_with {α : Type} (cell : StateCell)
    (f : ExecutionState → α × ExecutionState) : Option α × StateCell :=
  if cell.isSet then
    if !cell.borrowed then
      let r := f cell.state
      (some r.1, { cell with state := r.2 })
    else (none, cell)
  else (none, cell)

/-- `ExecutionState::with` (execution.rs:221-226): `try_with(f).expect(…)`
— the `none` outcome becomes a panic with `withExpectMsg`. -/
def ExecutionState.with' {α : Type} (cell : StateCell)
    (f : ExecutionState → α × ExecutionState) : Except String (α × StateCell) :=
  match ExecutionState.try_with cell f with
  | (some a, cell') => .ok (a, cell')
  | (none, _) => .error withExpectMsg

/-- Dense-ids invariant: the task ids, in registry order, are exactly
`0, …, tasks.len() - 1`. -/
def denseIds (st : ExecutionState) : Prop :=
  st.tasks.map (fun t => t.id) = List.range st.tasks.length

instance (st : ExecutionState) : Decidable (denseIds st) := by
  unfold denseIds; infer_instance

/-! ## Theorems -/

/-- Helper: `n` successive `notify_one` calls against a queue of `n`
waiters signal the senders back to front and empty the queue. -/
theorem notifyDeliveries_reverse (l : List Nat) :
    ∀ s nc snt, notifyDeliveries l.length ⟨s, l, nc, snt⟩ = l.reverse ∧
      (notifyIter l.length ⟨s, l, nc, snt⟩).waiters = [] := by
  induction l using List.reverseRecOn with
  | nil => intro s nc snt; constructor <;> rfl
  | append_singleton l a ih =>
    intro s nc snt
    have hlen : (l ++ [a]).length = l.length + 1 := by simp
    rw [hlen]
    have hone : notify_one ⟨s, l ++ [a], nc, snt⟩ = ⟨s, l, nc, snt ++ [a]⟩ := by
      simp [notify_one, List.getLast?_concat, List.dropLast_concat]
    constructor
    · show (l ++ [a]).getLast?.toList ++
        notifyDeliveries l.length (notify_one ⟨s, l ++ [a], nc, snt⟩) = (l ++ [a]).reverse
      rw [hone, List.getLast?_concat, (ih s nc (snt ++ [a])).1]
      simp
    · show (notifyIter l.length (notify_one ⟨s, l ++ [a], nc, snt⟩)).waiters = []
      rw [hone]
      exact (ih s nc (snt ++ [a])).2

/-- Helper: a poll of a `Notified` that already holds a receiver touches
neither the waiter queue nor the `Notified`. -/
theorem poll_notified_receiver_stable (w : NotifyWorld) (n : Notified) (ch : Nat)
    (h : n.receiver = some ch) :
    (poll_notified w n).2.1.waiters = w.waiters ∧ (poll_notified w n).2.2 = n := by
  simp [poll_notified, h]
  split
  · simp
  · simp [h]

/-- Helper: a `Notified` already holding a receiver never pushes again. -/
theorem countPushes_of_some (ws : List NotifyWorld) :
    ∀ (n : Notified) (ch : Nat), n.receiver = some ch → countPushes ws n = 0 := by
  induction ws with
  | nil => intro n ch h; rfl
  | cons w ws ih =>
    intro n ch h
    have h1 : pollPushes w n = false := by simp [pollPushes, h]
    have h2 : (poll_notified w n).2.2 = n := (poll_notified_receiver_stable w n ch h).2
    simp [countPushes, h1, h2]
    exact ih n ch h

/-- Helper: a `Notified` pushes at most one sender over any poll
sequence. -/
theorem countPushes_le_one (ws : List NotifyWorld) :
    ∀ n : Notified, countPushes ws n ≤ 1 := by
  induction ws with
  | nil => intro n; exact Nat.zero_le 1
  | cons w ws ih =>
    intro n
    cases hrec : n.receiver with
    | some ch => rw [countPushes_of_some (w :: ws) n ch hrec]; exact Nat.zero_le 1
    | none =>
      by_cases hstate : w.state = 1
      · have h1 : pollPushes w n = false := by simp [pollPushes, hstate]
        have h2 : (poll_notified w n).2.2 = n := by simp [poll_notified, hstate]
        simp [countPushes, h1, h2]
        exact ih n
      · have h1 : pollPushes w n = true := by simp [pollPushes, hstate, hrec]
        have h2 : (poll_notified w n).2.2 = ⟨some w.nextCh⟩ := by
          simp [poll_notified, hstate, hrec]
        have h3 : countPushes ws (⟨some w.nextCh⟩ : Notified) = 0 :=
          countPushes_of_some ws _ w.nextCh rfl
        simp [countPushes, h1, h2, h3]

/-- Claim C1, counterexample.  Two waiters register in order: the first
`poll_notified` pushes channel 0, the second pushes channel 1, so the
queue reads `[0, 1]` front to back.  The next `notify_one` removes and
signals the *back* entry (channel 1), so the second-registered waiter
polls `Ready` while the first-registered one still polls `Pending`; with
a second `notify_one` the delivery order is `[1, 0]` — the reverse of
registration order, not FIFO. -/
theorem notify_one_not_fifo_cex :
    poll_notified ⟨0, [], 0, []⟩ ⟨none⟩ = (.Pending, ⟨0, [0], 1, []⟩, ⟨some 0⟩) ∧
    poll_notified ⟨0, [0], 1, []⟩ ⟨none⟩ = (.Pending, ⟨0, [0, 1], 2, []⟩, ⟨some 1⟩) ∧
    notify_one ⟨0, [0, 1], 2, []⟩ = ⟨0, [0], 2, [1]⟩ ∧
    (poll_notified ⟨0, [0], 2, [1]⟩ ⟨some 0⟩).1 = .Pending ∧
    (poll_notified ⟨0, [0], 2, [1]⟩ ⟨some 1⟩).1 = .Ready ∧
    notifyDeliveries 2 ⟨0, [0, 1], 2, []⟩ = [1, 0] := by
  decide

/-- Claim C1, amended: for `k` waiters registered in order `w1..wk`
followed by `k` `notify_one()` calls with no new waiters interleaved, all
`k` waiters are woken, but in LIFO order `wk..w1`: each `notify_one`
removes and signals the *back* entry of the waiter queue (`Vec::pop`),
the queue ends empty, and a waiter whose channel has been signalled
resolves `Ready` at its next poll. -/
theorem notify_one_lifo :
    (∀ w : NotifyWorld,
      notifyDeliveries w.waiters.length w = w.waiters.reverse ∧
      (notifyIter w.waiters.length w).waiters = []) ∧
    (∀ (w : NotifyWorld) (n : Notified) (ch : Nat),
      n.receiver = some ch → ch ∈ w.sent → (poll_notified w n).1 = .Ready) := by
  constructor
  · intro w
    obtain ⟨s, l, nc, snt⟩ := w
    exact notifyDeliveries_reverse l s nc snt
  · intro w n ch hrec hmem
    simp [poll_notified, hrec]
    split
    · rfl
    · simp [hrec, hmem]

/-- Witness for the amended Claim C1 at concrete inputs. -/
theorem notify_one_lifo_witness :
    notifyDeliveries 2 ⟨0, [5, 7], 9, []⟩ = [7, 5] ∧
    (poll_notified ⟨0, [0], 2, [1]⟩ ⟨some 1⟩).1 = .Ready :=
  ⟨(notify_one_lifo.1 ⟨0, [5, 7], 9, []⟩).1,
   notify_one_lifo.2 ⟨0, [0], 2, [1]⟩ ⟨some 1⟩ 1 rfl (by decide)⟩

/-- Claim C2: on an empty waiter queue two consecutive `notify_one`s
leave `state = 1` (idempotent latch) and the queue empty; one fresh
`Notified` poll then wins the compare-exchange `1 → 0` and resolves
`Ready` without registering; a further fresh `Notified` polls `Pending`
(registering once), keeps polling `Pending`, and resolves `Ready` only
after another `notify_one`. -/
theorem notify_one_latch_idempotent (w : NotifyWorld) (hw : w.waiters = [])
    (hfresh : ∀ c ∈ w.sent, c < w.nextCh) :
    (notify_one (notify_one w)).state = 1 ∧
    (notify_one (notify_one w)).waiters = [] ∧
    poll_notified (notify_one (notify_one w)) ⟨none⟩ =
      (.Ready, { w with state := 0 }, ⟨none⟩) ∧
    poll_notified { w with state := 0 } ⟨none⟩ =
      (.Pending, { w with state := 0, waiters := [w.nextCh], nextCh := w.nextCh + 1 },
        ⟨some w.nextCh⟩) ∧
    (poll_notified { w with state := 0, waiters := [w.nextCh], nextCh := w.nextCh + 1 }
      ⟨some w.nextCh⟩).1 = .Pending ∧
    (poll_notified
        (notify_one { w with state := 0, waiters := [w.nextCh], nextCh := w.nextCh + 1 })
        ⟨some w.nextCh⟩).1 = .Ready := by
  obtain ⟨s, wl, nc, snt⟩ := w
  simp only at hw
  subst hw
  have hnotin : nc ∉ snt := fun h => absurd (hfresh nc h) (lt_irrefl nc)
  refine ⟨rfl, rfl, ?_, ?_, ?_, ?_⟩
  · simp [notify_one, poll_notified]
  · simp [notify_one, poll_notified, hnotin]
  · simp [notify_one, poll_notified, hnotin]
  · simp [notify_one, poll_notified]

/-- Witness for Claim C2 at the freshly constructed `Notify`. -/
theorem notify_one_latch_idempotent_witness :
    (notify_one (notify_one ⟨0, [], 0, []⟩)).state = 1 ∧
    poll_notified (notify_one (notify_one ⟨0, [], 0, []⟩)) ⟨none⟩ =
      (.Ready, { (⟨0, [], 0, []⟩ : NotifyWorld) with state := 0 }, ⟨none⟩) :=
  ⟨(notify_one_latch_idempotent ⟨0, [], 0, []⟩ rfl (by decide)).1,
   (notify_one_latch_idempotent ⟨0, [], 0, []⟩ rfl (by decide)).2.2.1⟩

/-- Claim C9: over any sequence of polls of one `Notified` (the Notify
world evolving arbitrarily between polls), at most one sender is ever
pushed on the waiter queue; the first poll that misses the latch pushes
the fresh channel and stores the receiver, and a poll that already holds
a receiver changes neither the waiter queue nor the `Notified`. -/
theorem poll_notified_registers_once :
    (∀ (ws : List NotifyWorld) (n : Notified), countPushes ws n ≤ 1) ∧
    (∀ (w : NotifyWorld) (n : Notified), n.receiver = none → ¬ w.state = 1 →
      poll_notified w n =
        (if w.nextCh ∈ w.sent then Poll.Ready else Poll.Pending,
         { w with waiters := w.waiters ++ [w.nextCh], nextCh := w.nextCh + 1 },
         ⟨some w.nextCh⟩)) ∧
    (∀ (w : NotifyWorld) (n : Notified) (ch : Nat), n.receiver = some ch →
      (poll_notified w n).2.1.waiters = w.waiters ∧ (poll_notified w n).2.2 = n) := by
  refine ⟨fun ws n => countPushes_le_one ws n, ?_, poll_notified_receiver_stable⟩
  intro w n hrec hstate
  simp [poll_notified, hstate, hrec]

/-- Witness for Claim C9 at concrete inputs. -/
theorem poll_notified_registers_once_witness :
    countPushes [⟨0, [], 0, []⟩, ⟨0, [0], 1, []⟩, ⟨1, [0], 1, []⟩] ⟨none⟩ ≤ 1 ∧
    poll_notified ⟨0, [], 0, []⟩ ⟨none⟩ = (.Pending, ⟨0, [0], 1, []⟩, ⟨some 0⟩) ∧
    (poll_notified ⟨0, [0], 1, []⟩ ⟨some 0⟩).2.1.waiters = [0] :=
  ⟨poll_notified_registers_once.1 _ _,
   poll_notified_registers_once.2.1 ⟨0, [], 0, []⟩ ⟨none⟩ rfl (by decide),
   (poll_notified_registers_once.2.2 ⟨0, [0], 1, []⟩ ⟨some 0⟩ 0 rfl).1⟩

/-- Claim C3: `schedule` succeeds immediately leaving the state unchanged
when a choice is already pending; with no pending choice and no runnable
task it records `Finished`; otherwise it consults the strategy's
`next_task` with the full runnable set and the current task id, recording
`Some tid` for a pick and `Stopped` for an abandonment. -/
theorem schedule_cases (strat : Strategy) (st : ExecutionState) :
    (st.next_task ≠ ScheduledTask.None → st.schedule strat = .ok st) ∧
    (st.next_task = ScheduledTask.None → runnableSet st = [] →
      st.schedule strat = .ok { st with next_task := .Finished }) ∧
    (st.next_task = ScheduledTask.None → runnableSet st ≠ [] →
      st.schedule strat = .ok { st with
        next_task := match strat.next_task (runnableSet st) st.current_task.id with
          | some tid => ScheduledTask.Some tid
          | none => ScheduledTask.Stopped }) := by
  refine ⟨?_, ?_, ?_⟩
  · intro h; simp [ExecutionState.schedule, h]
  · intro h hr; simp [ExecutionState.schedule, h, hr]
  · intro h hr; simp [ExecutionState.schedule, h, hr]

/-- Witness for Claim C3: all three branches at concrete inputs. -/
theorem schedule_cases_witness :
    (ExecutionState.schedule ⟨fun _ _ => some 0, fun t => t⟩
        ⟨[⟨0, none, 0, true, false⟩], .Some 0, .Some 0⟩ =
      .ok ⟨[⟨0, none, 0, true, false⟩], .Some 0, .Some 0⟩) ∧
    (ExecutionState.schedule ⟨fun _ _ => some 0, fun t => t⟩
        ⟨[⟨0, none, 0, false, true⟩], .Some 0, .None⟩ =
      .ok ⟨[⟨0, none, 0, false, true⟩], .Some 0, .Finished⟩) ∧
    (ExecutionState.schedule ⟨fun _ _ => some 0, fun t => t⟩
        ⟨[⟨0, none, 0, true, false⟩], .Some 0, .None⟩ =
      .ok ⟨[⟨0, none, 0, true, false⟩], .Some 0, .Some 0⟩) :=
  ⟨(schedule_cases ⟨fun _ _ => some 0, fun t => t⟩
      ⟨[⟨0, none, 0, true, false⟩], .Some 0, .Some 0⟩).1 (by decide),
   (schedule_cases ⟨fun _ _ => some 0, fun t => t⟩
      ⟨[⟨0, none, 0, false, true⟩], .Some 0, .None⟩).2.1 rfl (by decide),
   (schedule_cases ⟨fun _ _ => some 0, fun t => t⟩
      ⟨[⟨0, none, 0, true, false⟩], .Some 0, .None⟩).2.2 rfl (by decide)⟩

/-- Claim C4: a driver step that observes `current_task = Finished` with
an unfinished task raises (as a panic) the persisted deadlock failure
listing each blocked task as `<name> (task <id>)` (name defaulting to
`<unknown>`); with every task finished it stops the loop with no error. -/
theorem step_deadlock (persist : String → Option Event → String) (strat : Strategy)
    (st st1 : ExecutionState) (hsched : st.schedule strat = .ok st1)
    (hfin : st1.next_task = ScheduledTask.Finished) :
    (st1.tasks.any (fun t => !t.finished) = true →
      Execution.step persist strat st =
        (.panics (persist ("deadlock! blocked tasks: [" ++ String.intercalate ", "
            ((st1.tasks.filter (fun t => !t.finished)).map
              (fun t => t.name.getD "<unknown>" ++ " (task " ++ toString t.id ++ ")"))
            ++ "]") none),
         st1.advance_to_next_task)) ∧
    (st1.tasks.any (fun t => !t.finished) = false →
      Execution.step persist strat st = (.stop, st1.advance_to_next_task)) := by
  constructor
  · intro hany
    simp [Execution.step, stepChoose, hsched, hfin, hany,
      ExecutionState.advance_to_next_task, failure_info, ExecutionState.try_current,
      ScheduledTask.id]
  · intro hany
    simp [Execution.step, stepChoose, hsched, hfin, hany,
      ExecutionState.advance_to_next_task]

/-- Witness for Claim C4 at concrete inputs: one unfinished named task
deadlocks with the exact message; an all-finished registry stops. -/
theorem step_deadlock_witness :
    (Execution.step (fun m _ => m) ⟨fun _ _ => some 0, fun t => t⟩
        ⟨[⟨0, some "child", 0, false, false⟩], .None, .Finished⟩ =
      (.panics "deadlock! blocked tasks: [child (task 0)]",
       ⟨[⟨0, some "child", 0, false, false⟩], .Finished, .None⟩)) ∧
    (Execution.step (fun m _ => m) ⟨fun _ _ => some 0, fun t => t⟩
        ⟨[⟨0, some "main", 0, false, true⟩], .None, .Finished⟩ =
      (.stop, ⟨[⟨0, some "main", 0, false, true⟩], .Finished, .None⟩)) :=
  ⟨(step_deadlock (fun m _ => m) ⟨fun _ _ => some 0, fun t => t⟩
      ⟨[⟨0, some "child", 0, false, false⟩], .None, .Finished⟩
      ⟨[⟨0, some "child", 0, false, false⟩], .None, .Finished⟩
      rfl rfl).1 (by decide),
   (step_deadlock (fun m _ => m) ⟨fun _ _ => some 0, fun t => t⟩
      ⟨[⟨0, some "main", 0, false, true⟩], .None, .Finished⟩
      ⟨[⟨0, some "main", 0, false, true⟩], .None, .Finished⟩
      rfl rfl).2 (by decide)⟩

/-- Claim C5: with a running current task and no pending choice,
`maybe_yield` pre-runs the scheduler and returns `false` (no need to
yield) exactly when the strategy picked the currently running task, in
which case the choice is consumed and the state is exactly as before
(`next_task` back to `None`, `current_task` unchanged); otherwise it
returns `true` (please yield). -/
theorem maybe_yield_skip (strat : Strategy) (st : ExecutionState) (tid : Nat)
    (hcur : st.current_task = .Some tid) (hnext : st.next_task = .None) :
    ((st.maybe_yield strat).1 = false ↔
      (runnableSet st ≠ [] ∧ strat.next_task (runnableSet st) (some tid) = some tid)) ∧
    ((st.maybe_yield strat).1 = false → (st.maybe_yield strat).2 = st) := by
  obtain ⟨tasks, cur, nxt⟩ := st
  simp only at hcur hnext
  subst hcur; subst hnext
  by_cases hr : runnableSet ⟨tasks, .Some tid, .None⟩ = []
  · constructor
    · simp [ExecutionState.maybe_yield, ExecutionState.schedule, hr]
    · simp [ExecutionState.maybe_yield, ExecutionState.schedule, hr]
  · cases hpick : strat.next_task (runnableSet ⟨tasks, .Some tid, .None⟩) (some tid) with
    | some t =>
      by_cases ht : tid = t
      · subst ht
        constructor
        · simp [ExecutionState.maybe_yield, ExecutionState.schedule, hr, hpick,
            ScheduledTask.id]
        · intro _
          simp [ExecutionState.maybe_yield, ExecutionState.schedule, hr, hpick,
            ScheduledTask.id, ExecutionState.advance_to_next_task]
      · constructor
        · simp [ExecutionState.maybe_yield, ExecutionState.schedule, hr, hpick,
            ScheduledTask.id, ht]
          intro h; exact absurd h.symm ht
        · intro hfalse
          exfalso
          simp [ExecutionState.maybe_yield, ExecutionState.schedule, hr, hpick,
            ScheduledTask.id, ht] at hfalse
    | none =>
      constructor
      · simp [ExecutionState.maybe_yield, ExecutionState.schedule, hr, hpick,
          ScheduledTask.id]
      · intro hfalse
        exfalso
        simp [ExecutionState.maybe_yield, ExecutionState.schedule, hr, hpick,
          ScheduledTask.id] at hfalse

/-- Witness for Claim C5: the strategy re-picks the running task, so no
yield is needed and the state is unchanged. -/
theorem maybe_yield_skip_witness :
    (ExecutionState.maybe_yield ⟨fun _ _ => some 0, fun t => t⟩
      ⟨[⟨0, none, 0, true, false⟩], .Some 0, .None⟩).1 = false ∧
    (ExecutionState.maybe_yield ⟨fun _ _ => some 0, fun t => t⟩
      ⟨[⟨0, none, 0, true, false⟩], .Some 0, .None⟩).2 =
        ⟨[⟨0, none, 0, true, false⟩], .Some 0, .None⟩ :=
  have h := maybe_yield_skip ⟨fun _ _ => some 0, fun t => t⟩
    ⟨[⟨0, none, 0, true, false⟩], .Some 0, .None⟩ 0 rfl rfl
  have h1 := h.1.mpr ⟨by decide, rfl⟩
  ⟨h1, h.2 h1⟩

/-- Claim C6: at the resume boundary, a caught string panic payload is
re-raised as `"<persist message>\noriginal panic: <string>"`, where the
persist message is what `persist_task_failure` returned; a non-string
payload is forwarded unchanged. -/
theorem step_on_panic_payload (persist : String → Option Event → String)
    (name : String) (pos : Event) :
    (∀ s, step_on_panic persist name pos (.str s) =
      .str (persist name (some pos) ++ "\noriginal panic: " ++ s)) ∧
    (∀ t, step_on_panic persist name pos (.opaqueBox t) = .opaqueBox t) :=
  ⟨fun _ => rfl, fun _ => rfl⟩

/-- Claim C7: outside an installed execution-state region, or while the
state is already mutably borrowed, `with` panics with its explicit
diagnostic message while `try_with` returns `none` without panicking;
inside a region with no outstanding borrow both invoke `f` on the
installed state. -/
theorem with_try_with_misuse {α : Type} (cell : StateCell)
    (f : ExecutionState → α × ExecutionState) :
    ((cell.isSet = false ∨ cell.borrowed = true) →
      ExecutionState.try_with cell f = (none, cell) ∧
      ExecutionState.with' cell f = .error withExpectMsg) ∧
    (cell.isSet = true → cell.borrowed = false →
      ExecutionState.try_with cell f =
        (some (f cell.state).1, { cell with state := (f cell.state).2 }) ∧
      ExecutionState.with' cell f =
        .ok ((f cell.state).1, { cell with state := (f cell.state).2 })) := by
  constructor
  · intro h
    cases h with
    | inl hset =>
      constructor
      · simp [ExecutionState.try_with, hset]
      · simp [ExecutionState.with', ExecutionState.try_with, hset]
    | inr hbor =>
      by_cases hset : cell.isSet
      · constructor
        · simp [ExecutionState.try_with, hset, hbor]
        · simp [ExecutionState.with', ExecutionState.try_with, hset, hbor]
      · constructor
        · simp [ExecutionState.try_with, hset]
        · simp [ExecutionState.with', ExecutionState.try_with, hset]
  · intro hset hbor
    constructor
    · simp [ExecutionState.try_with, hset, hbor]
    · simp [ExecutionState.with', ExecutionState.try_with, hset, hbor]

/-- Witness for Claim C7: a never-installed cell makes `with` panic and
`try_with` absent; an installed unborrowed cell runs `f`. -/
theorem with_try_with_misuse_witness :
    (ExecutionState.try_with ⟨false, false, ExecutionState.new⟩
        (fun st => (st.tasks.length, st)) = (none, ⟨false, false, ExecutionState.new⟩) ∧
      ExecutionState.with' ⟨false, false, ExecutionState.new⟩
        (fun st => (st.tasks.length, st)) = .error withExpectMsg) ∧
    ExecutionState.try_with ⟨true, false, ExecutionState.new⟩
        (fun st => (st.tasks.length, st)) =
      (some 0, ⟨true, false, ExecutionState.new⟩) :=
  ⟨(with_try_with_misuse ⟨false, false, ExecutionState.new⟩
      (fun st => (st.tasks.length, st))).1 (Or.inl rfl),
   ((with_try_with_misuse ⟨true, false, ExecutionState.new⟩
      (fun st => (st.tasks.length, st))).2 rfl rfl).1⟩

/-- Helper: `spawnMany` preserves the dense-ids invariant. -/
theorem spawnMany_denseIds (specs : List (Nat × Option String)) :
    ∀ st : ExecutionState, denseIds st → denseIds (spawnMany specs st) := by
  induction specs with
  | nil => intro st h; exact h
  | cons p rest ih =>
    intro st h
    obtain ⟨sz, nm⟩ := p
    apply ih
    unfold denseIds at h ⊢
    simp [ExecutionState.spawn_thread, Task.from_closure, List.range_succ, h]

/-- Claim C8: `spawn_thread` returns the id `tasks.len()` and appends the
new task, carrying that id, at that index; consequently after any
sequence of spawns from a fresh state the ids read `0, …, len - 1` with
no gaps. -/
theorem spawn_thread_dense_ids :
    (∀ (st : ExecutionState) (sz : Nat) (nm : Option String),
      (st.spawn_thread sz nm).1 = st.tasks.length ∧
      (st.spawn_thread sz nm).2.tasks =
        st.tasks ++ [Task.from_closure sz st.tasks.length nm]) ∧
    (∀ specs : List (Nat × Option String), denseIds (spawnMany specs ExecutionState.new)) := by
  constructor
  · intro st sz nm; exact ⟨rfl, rfl⟩
  · intro specs
    exact spawnMany_denseIds specs ExecutionState.new rfl

/-- Claim C10: `prev_pos` silently requires the current task's
instruction counter to be at least 1: under that precondition it
decrements the counter by exactly one and returns the `Event` at the
decremented count; at counter 0 the `usize` subtraction underflows
(debug-build panic, modelled as `none`) instead of returning a defined
position. -/
theorem prev_pos_underflow (strat : Strategy) (st : ExecutionState) (tid : Nat)
    (task : Task) (hcur : st.current_task = .Some tid)
    (hget : st.tasks.get? tid = some task) :
    (1 ≤ task.instructions →
      st.prev_pos strat = some
        (Event.new (strat.to_thread_id tid) ((task.instructions - 1) % 2 ^ 32),
         { st with tasks := st.tasks.set tid { task with instructions := task.instructions - 1 } })) ∧
    (task.instructions = 0 → st.prev_pos strat = none) := by
  have hget2 : st.tasks[tid]? = some task := by simpa using hget
  constructor
  · intro h1
    have h0 : ¬ task.instructions = 0 := by omega
    simp [ExecutionState.prev_pos, hcur, ScheduledTask.id, hget2, h0]
  · intro h0
    simp [ExecutionState.prev_pos, hcur, ScheduledTask.id, hget2, h0]

/-- Witness for Claim C10: a counter of 1 decrements to 0; a counter of 0
has no defined result. -/
theorem prev_pos_underflow_witness :
    ExecutionState.prev_pos ⟨fun _ _ => some 0, fun t => t⟩
        ⟨[⟨0, none, 1, true, false⟩], .Some 0, .None⟩ =
      some (Event.new 0 0, ⟨[⟨0, none, 0, true, false⟩], .Some 0, .None⟩) ∧
    ExecutionState.prev_pos ⟨fun _ _ => some 0, fun t => t⟩
        ⟨[⟨0, none, 0, true, false⟩], .Some 0, .None⟩ = none :=
  ⟨(prev_pos_underflow ⟨fun _ _ => some 0, fun t => t⟩
      ⟨[⟨0, none, 1, true, false⟩], .Some 0, .None⟩ 0 ⟨0, none, 1, true, false⟩
      rfl rfl).1 (by decide),
   (prev_pos_underflow ⟨fun _ _ => some 0, fun t => t⟩
      ⟨[⟨0, none, 0, true, false⟩], .Some 0, .None⟩ 0 ⟨0, none, 0, true, false⟩
      rfl rfl).2 rfl⟩

end TraceForge
